import Mathlib

/-!
Shallow embedding of the StoryTeller backend's playlist-ordering and
profile-deletion logic, translated from the route handlers:

* add story to playlist — `POST /api/playlists/{playlist_id}/stories`
* remove story from playlist — `DELETE /api/playlists/{playlist_id}/stories/{story_id}`
* create favorite — `POST /api/favorites`
* create playlist — `POST /api/playlists`
* delete profile — `DELETE /api/profiles/{id}`

Relational tables are lists of row structures; Prisma query-builder calls
(`findUnique`, `findFirst`, `updateMany`, `deleteMany`, `create`, `delete`)
become the corresponding list operations.  Handlers are total functions from a
database state and the already-parsed request parameters to a status code and
the successor state.  `prisma.$transaction` is modelled per its contract
(all-or-nothing with rollback on error); the calls that the source does *not*
wrap in a transaction are modelled as separate steps that can fail
independently.
-/

namespace StoryTeller

/-- A row of the `playlistStories` join table: a playlist entry referencing a
story, carrying the integer `order` field. -/
structure PlaylistStoryRow where
  playlist_id : Int
  story_id : Int
  order : Int
deriving DecidableEq, Repr

/-- A row of the `profiles` table (only the fields the handlers read). -/
structure ProfileRow where
  id : Int
  user_id : Int
  photo_url : Option String
deriving DecidableEq, Repr

/-- A row of the `playlists` table. -/
structure PlaylistRow where
  id : Int
  profile_id : Int
  name : String
deriving DecidableEq, Repr

/-- A row of the `favorites` table. -/
structure FavoriteRow where
  profile_id : Int
  story_id : Int
deriving DecidableEq, Repr

/-- A row of the `profileCategories` table. -/
structure ProfileCategoryRow where
  profile_id : Int
  category_id : Int
deriving DecidableEq, Repr

abbrev PSTable := List PlaylistStoryRow

/-- The database state seen by the handlers. `stories` keeps only the ids,
which is all the handlers consult. -/
structure DB where
  profiles : List ProfileRow
  playlists : List PlaylistRow
  stories : List Int
  playlistStories : PSTable
  favorites : List FavoriteRow
  profileCategories : List ProfileCategoryRow
deriving DecidableEq, Repr

/-- Translates `playlist.playlistStories` — the entries of one playlist. -/
def entriesOf (tbl : PSTable) (pid : Int) : PSTable :=
  tbl.filter (fun r => r.playlist_id == pid)

/-- Translates `playlist.playlistStories.length` — the current entry count. -/
def countOf (tbl : PSTable) (pid : Int) : Nat :=
  (entriesOf tbl pid).length

/-- Translates `updateMany where playlist_id = pid, order gte p, data order increment 1`. -/
def shiftUpFrom (tbl : PSTable) (pid p : Int) : PSTable :=
  tbl.map (fun r =>
    if r.playlist_id == pid && p ≤ r.order then { r with order := r.order + 1 } else r)

/-- Translates `updateMany where playlist_id = pid, order gt p, data order decrement 1`. -/
def shiftDownAfter (tbl : PSTable) (pid p : Int) : PSTable :=
  tbl.map (fun r =>
    if r.playlist_id == pid && p < r.order then { r with order := r.order - 1 } else r)

/-- Translates `Math.max(0, Math.min(position, playlist.playlistStories.length))`. -/
def clampPos (p : Int) (n : Nat) : Int :=
  max 0 (min p (n : Int))

/-- Translates `prisma.playlists.findUnique where id = pid`. -/
def findPlaylist (db : DB) (pid : Int) : Option PlaylistRow :=
  db.playlists.find? (fun pl => pl.id == pid)

/-- Translates `prisma.profiles.findUnique where id = prid`. -/
def findProfile (db : DB) (prid : Int) : Option ProfileRow :=
  db.profiles.find? (fun pr => pr.id == prid)

/-- The `where playlist_id, story_id` predicate of `findFirst` / `delete`. -/
def matchesEntry (pid sid : Int) (r : PlaylistStoryRow) : Bool :=
  r.playlist_id == pid && r.story_id == sid

/-- Result of the add-story handler: HTTP status, successor database state,
and the `order` value written for the new entry on success. -/
structure AddStoryResult where
  status : Nat
  db : DB
  newOrder : Option Int
deriving DecidableEq, Repr

/-- Handler `POST /api/playlists/\x7bplaylist_id\x7d/stories` after authentication:
body validation, playlist lookup, ownership check, story lookup, duplicate
check, then the range shift (for an explicit position) and the entry create.
`sid == 0` is rejected with 400 because the source tests `!story_id`, which
is true for the number 0.  A playlist whose profile row is missing falls into
the catch-all 500 (the store would fail the relation load). -/
def addStoryPOST (db : DB) (userId pid sid : Int) (position : Option Int) :
    AddStoryResult :=
  if sid == 0 then ⟨400, db, none⟩
  else
    match findPlaylist db pid with
    | none => ⟨404, db, none⟩
    | some pl =>
      match findProfile db pl.profile_id with
      | none => ⟨500, db, none⟩
      | some pr =>
        if pr.user_id != userId then ⟨403, db, none⟩
        else if !(db.stories.contains sid) then ⟨404, db, none⟩
        else if db.playlistStories.any (matchesEntry pid sid) then ⟨409, db, none⟩
        else
          let n := countOf db.playlistStories pid
          match position with
          | some p =>
            let vp := clampPos p n
            ⟨201,
             { db with playlistStories :=
                 shiftUpFrom db.playlistStories pid vp ++ [⟨pid, sid, vp⟩] },
             some vp⟩
          | none =>
            ⟨201,
             { db with playlistStories :=
                 db.playlistStories ++ [⟨pid, sid, (n : Int)⟩] },
             some (n : Int)⟩

/-- Result of a handler that returns only a status and the new state. -/
structure SimpleResult where
  status : Nat
  db : DB
deriving DecidableEq, Repr

/-- Handler `DELETE /api/playlists/\x7bplaylist_id\x7d/stories/\x7bstory_id\x7d` after
authentication: playlist lookup, ownership check, `findFirst` for the entry,
then `delete where id = playlistStory.id` (the found row, i.e. the first
match) followed by the decrement `updateMany`. -/
def removeStoryDELETE (db : DB) (userId pid sid : Int) : SimpleResult :=
  match findPlaylist db pid with
  | none => ⟨404, db⟩
  | some pl =>
    match findProfile db pl.profile_id with
    | none => ⟨500, db⟩
    | some pr =>
      if pr.user_id != userId then ⟨403, db⟩
      else
        match db.playlistStories.find? (matchesEntry pid sid) with
        | none => ⟨404, db⟩
        | some row =>
          let tbl := db.playlistStories.eraseP (matchesEntry pid sid)
          ⟨200, { db with playlistStories := shiftDownAfter tbl pid row.order }⟩

/-- Handler `POST /api/favorites` after authentication: the body check `!profile_id
|| !story_id` (so the number 0 is rejected with 400), the duplicate
`findFirst`, then `create`.  The authenticated user is never compared against
the profile`s owner. -/
def favoritesPOST (db : DB) (_userId profileId storyId : Int) : SimpleResult :=
  if profileId == 0 || storyId == 0 then ⟨400, db⟩
  else if db.favorites.any (fun f => f.profile_id == profileId && f.story_id == storyId) then
    ⟨409, db⟩
  else ⟨201, { db with favorites := db.favorites ++ [⟨profileId, storyId⟩] }⟩

/-- Handler `POST /api/playlists` after authentication: body checks, profile lookup,
story lookups, then `create` of the playlist with nested entries whose
`order` is the index in `story_ids`.  `newId` stands for the
store-generated playlist id.  The authenticated user is never compared
against the profile`s owner. -/
def playlistsPOST (db : DB) (_userId profileId : Int) (name : String)
    (storyIds : List Int) (newId : Int) : SimpleResult :=
  if profileId == 0 || name == "" then ⟨400, db⟩
  else if storyIds.isEmpty then ⟨400, db⟩
  else if name.trim == "" then ⟨400, db⟩
  else
    match findProfile db profileId with
    | none => ⟨404, db⟩
    | some _ =>
      if (db.stories.filter (fun s => storyIds.contains s)).length != storyIds.length then
        ⟨404, db⟩
      else
        ⟨201,
         { db with
             playlists := db.playlists ++ [⟨newId, profileId, name.trim⟩],
             playlistStories := db.playlistStories ++
               (storyIds.enum.map (fun p => ⟨newId, p.2, (p.1 : Int)⟩)) }⟩

/-- Row counts returned by the delete-profile transaction, one per dependent
kind. -/
structure DeleteCounts where
  playlistStories : Nat
  playlists : Nat
  favorites : Nat
  profileCategories : Nat
deriving DecidableEq, Repr

/-- The body of `prisma.$transaction` in the profile DELETE handler: the five
deletion steps in source order.  Step 1 is skipped (`count: 0`) when the
profile has no playlists. -/
def runDeleteTx (db : DB) (profileId : Int) : DB × DeleteCounts :=
  let playlistIds := (db.playlists.filter (fun pl => pl.profile_id == profileId)).map
    (fun pl => pl.id)
  let psDeleted :=
    if playlistIds.length > 0 then
      (db.playlistStories.filter (fun r => playlistIds.contains r.playlist_id)).length
    else 0
  let ps :=
    if playlistIds.length > 0 then
      db.playlistStories.filter (fun r => !(playlistIds.contains r.playlist_id))
    else db.playlistStories
  let plDeleted := (db.playlists.filter (fun pl => pl.profile_id == profileId)).length
  let pls := db.playlists.filter (fun pl => pl.profile_id != profileId)
  let favDeleted := (db.favorites.filter (fun f => f.profile_id == profileId)).length
  let favs := db.favorites.filter (fun f => f.profile_id != profileId)
  let pcDeleted := (db.profileCategories.filter (fun c => c.profile_id == profileId)).length
  let pcs := db.profileCategories.filter (fun c => c.profile_id != profileId)
  let prs := db.profiles.eraseP (fun pr => pr.id == profileId)
  (⟨prs, pls, db.stories, ps, favs, pcs⟩,
   ⟨psDeleted, plDeleted, favDeleted, pcDeleted⟩)

/-- JavaScript truthiness of `profile.photo_url` (`!!profile.photo_url`):
false for a missing value and for the empty string. -/
def truthyUrl : Option String → Bool
  | none => false
  | some s => s != ""

/-- Object-store key derivation:
`profile.photo_url.replace(PUBLIC_URL + "/", "")`. -/
def r2KeyOf (publicUrl url : String) : String :=
  url.replace (publicUrl ++ "/") ""

/-- Result of the profile DELETE handler.  `attemptedKey` is the key of the
object-store delete call when one was issued; `loggedR2Error` records the
`console.error` of a failed object-store call (the only trace it leaves —
the response is built the same either way). -/
structure DeleteProfileResult where
  status : Nat
  db : DB
  counts : Option DeleteCounts
  deletedPhoto : Option Bool
  attemptedKey : Option String
  loggedR2Error : Bool
  errorBody : Option String
deriving DecidableEq, Repr

/-- Handler `DELETE /api/profiles/\x7bid\x7d` after authentication: profile lookup,
ownership check, the five-step deletion transaction, then the best-effort
object-store delete of the photo.  `txSucceeds` models whether the store
commits the transaction; on failure all its writes roll back (the
transaction contract of the store) and the handler catch returns 500 with an
error body.  `r2Succeeds` models the outcome of the object-store call; its
failure is caught and only logged. -/
def deleteProfileDELETE (db : DB) (userId profileId : Int) (publicUrl : String)
    (txSucceeds r2Succeeds : Bool) : DeleteProfileResult :=
  match findProfile db profileId with
  | none => ⟨404, db, none, none, none, false, some "Profile not found"⟩
  | some pr =>
    if pr.user_id != userId then
      ⟨403, db, none, none, none, false, some "Forbidden - you can only delete your own profiles"⟩
    else if !txSucceeds then
      ⟨500, db, none, none, none, false, some "Failed to delete profile"⟩
    else
      let res := runDeleteTx db profileId
      let key := match pr.photo_url with
        | some u => if u != "" then some (r2KeyOf publicUrl u) else none
        | none => none
      ⟨200, res.1, some res.2, some (truthyUrl pr.photo_url), key,
       key.isSome && !r2Succeeds, none⟩

/-- Outcome of one awaited store call. -/
inductive CallOutcome where
  | ok
  | fail
deriving DecidableEq, Repr

/-- The mutation section of the add-story handler with an explicit position:
two separate awaited store calls — `updateMany` (the range shift) and then
`create` — with no surrounding transaction.  Each call can fail
independently; a failure of the second call leaves the first call`s effect
committed. -/
def addStoryMutationRun (tbl : PSTable) (pid sid vp : Int) :
    CallOutcome → CallOutcome → PSTable
  | .fail, _ => tbl
  | .ok, .fail => shiftUpFrom tbl pid vp
  | .ok, .ok => shiftUpFrom tbl pid vp ++ [⟨pid, sid, vp⟩]

/-- The mutation section of the remove-story handler: two separate awaited
store calls — `delete` of the found row and then the decrement `updateMany`
— with no surrounding transaction. -/
def removeStoryMutationRun (tbl : PSTable) (pid sid p : Int) :
    CallOutcome → CallOutcome → PSTable
  | .fail, _ => tbl
  | .ok, .fail => tbl.eraseP (matchesEntry pid sid)
  | .ok, .ok => shiftDownAfter (tbl.eraseP (matchesEntry pid sid)) pid p

/-- The multiset of `order` values of one playlist's entries. -/
def ordersOf (tbl : PSTable) (pid : Int) : Multiset Int :=
  (entriesOf tbl pid : Multiset PlaylistStoryRow).map (fun r => r.order)

/-- The set `\x7b0, 1, ..., n-1\x7d` as a multiset of integers. -/
def rangeZ (n : Nat) : Multiset Int :=
  (Multiset.range n).map (fun k : Nat => (k : Int))

/-- The ordering invariant for one playlist: the multiset of `order` values
is exactly `{0, ..., n-1}` where `n` is the entry count. -/
def dense (tbl : PSTable) (pid : Int) : Prop :=
  ordersOf tbl pid = rangeZ (countOf tbl pid)

instance (tbl : PSTable) (pid : Int) : Decidable (dense tbl pid) := by
  unfold dense; infer_instance

/-- One sequentially executed playlist operation, as issued through the two
handlers by an authenticated caller. -/
inductive PlaylistOp where
  | add (userId pid sid : Int) (position : Option Int)
  | remove (userId pid sid : Int)
deriving DecidableEq, Repr

/-- The state reached after one completed handler invocation. -/
def applyOp (db : DB) : PlaylistOp → DB
  | .add userId pid sid position => (addStoryPOST db userId pid sid position).db
  | .remove userId pid sid => (removeStoryDELETE db userId pid sid).db

/-- The state reached after a sequence of completed handler invocations. -/
def applyOps (db : DB) (ops : List PlaylistOp) : DB :=
  ops.foldl applyOp db

/-! ### Arithmetic of the dense range multiset -/

theorem rangeZ_succ (n : Nat) : rangeZ (n + 1) = (n : Int) ::ₘ rangeZ n := by
  simp [rangeZ, Multiset.range_succ]

theorem card_rangeZ (n : Nat) : (rangeZ n).card = n := by
  simp [rangeZ]

theorem mem_rangeZ {o : Int} {n : Nat} : o ∈ rangeZ n ↔ 0 ≤ o ∧ o < n := by
  rw [rangeZ, Multiset.mem_map]
  constructor
  · rintro ⟨k, hk, rfl⟩
    rw [Multiset.mem_range] at hk
    exact ⟨Int.ofNat_nonneg k, by exact_mod_cast hk⟩
  · rintro ⟨h0, hn⟩
    refine ⟨o.toNat, ?_, ?_⟩
    · rw [Multiset.mem_range]; omega
    · omega

theorem rangeZ_add_top (n : Nat) : rangeZ n + {(n : Int)} = rangeZ (n + 1) := by
  rw [add_comm, Multiset.singleton_add, rangeZ_succ]

/-- Inserting `vp` after shifting every value `≥ vp` up by one turns
`{0, ..., n-1}` into `{0, ..., n}`. -/
theorem rangeZ_shift_insert {vp : Int} :
    ∀ n : Nat, 0 ≤ vp → vp ≤ (n : Int) →
      (rangeZ n).map (fun o => if vp ≤ o then o + 1 else o) + {vp} = rangeZ (n + 1) := by
  intro n
  induction n with
  | zero =>
    intro h0 hn
    have hvp : vp = 0 := le_antisymm (by exact_mod_cast hn) h0
    subst hvp
    simp [rangeZ]
  | succ n ih =>
    intro h0 hn
    by_cases hcase : vp ≤ (n : Int)
    · rw [rangeZ_succ, Multiset.map_cons, if_pos hcase, Multiset.cons_add, ih h0 hcase]
      have hc : ((n : Int) + 1) = (((n + 1 : Nat)) : Int) := by push_cast; ring
      rw [hc, ← rangeZ_succ]
    · have hvp : vp = ((n : Int) + 1) := by
        have : vp ≤ (n : Int) + 1 := by exact_mod_cast hn
        omega
      have hid : (rangeZ (n + 1)).map (fun o => if vp ≤ o then o + 1 else o) =
          rangeZ (n + 1) := by
        have := Multiset.map_congr (rfl : rangeZ (n + 1) = rangeZ (n + 1))
          (f := fun o => if vp ≤ o then o + 1 else o) (g := id) ?_
        · simpa using this
        · intro o ho
          rcases mem_rangeZ.mp ho with ⟨ho0, hol⟩
          have : ¬ vp ≤ o := by push_cast at hol; omega
          simp [this]
      rw [hid, hvp]
      have : ((n : Int) + 1) = (((n + 1 : Nat)) : Int) := by push_cast; ring
      rw [this, rangeZ_add_top]

/-- Removing `p` and shifting every value `> p` down by one turns
`{0, ..., n-1}` into `{0, ..., n-2}`. -/
theorem rangeZ_erase_shift {p : Int} :
    ∀ n : Nat, 0 ≤ p → p < (n : Int) →
      ((rangeZ n).erase p).map (fun o => if p < o then o - 1 else o) = rangeZ (n - 1) := by
  intro n
  induction n with
  | zero =>
    intro h0 hn
    exact absurd hn (by push_cast; omega)
  | succ n ih =>
    intro h0 hn
    by_cases hcase : p = (n : Int)
    · rw [rangeZ_succ, hcase, Multiset.erase_cons_head]
      have hid := Multiset.map_congr (rfl : rangeZ n = rangeZ n)
        (f := fun o => if (n : Int) < o then o - 1 else o) (g := id) ?_
      · simp only [Nat.add_sub_cancel]
        simpa using hid
      · intro o ho
        rcases mem_rangeZ.mp ho with ⟨ho0, hol⟩
        have hno : ¬ (n : Int) < o := by omega
        simp [hno]
    · have hpn : p < (n : Int) := by
        have : p < (n : Int) + 1 := by exact_mod_cast hn
        omega
      obtain ⟨m, rfl⟩ : ∃ m, n = m + 1 := by
        cases n with
        | zero => exact absurd hpn (by norm_num; omega)
        | succ m => exact ⟨m, rfl⟩
      rw [rangeZ_succ, Multiset.erase_cons_tail _ (by exact_mod_cast Ne.symm hcase),
        Multiset.map_cons, if_pos hpn, ih h0 hpn]
      simp only [Nat.add_sub_cancel]
      have h1 : ((m + 1 : Nat) : Int) - 1 = ((m : Nat) : Int) := by push_cast; ring
      rw [h1, ← rangeZ_succ]

/-! ### Table-level lemmas -/

theorem entriesOf_append (t1 t2 : PSTable) (pid : Int) :
    entriesOf (t1 ++ t2) pid = entriesOf t1 pid ++ entriesOf t2 pid := by
  simp [entriesOf, List.filter_append]

theorem entriesOf_map_preserving (tbl : PSTable) (F : PlaylistStoryRow → PlaylistStoryRow)
    (hF : ∀ r, (F r).playlist_id = r.playlist_id) (pid : Int) :
    entriesOf (tbl.map F) pid = (entriesOf tbl pid).map F := by
  induction tbl with
  | nil => rfl
  | cons r t ih =>
    simp only [entriesOf, List.map_cons, List.filter_cons, hF r] at *
    by_cases h : (r.playlist_id == pid) = true
    · simp [h, ih]
    · simp [h, ih]

theorem shiftUpFrom_preserves_pid (pid p : Int) (r : PlaylistStoryRow) :
    ((fun r : PlaylistStoryRow =>
        if r.playlist_id == pid && p ≤ r.order then { r with order := r.order + 1 } else r)
      r).playlist_id = r.playlist_id := by
  by_cases h : (r.playlist_id == pid && p ≤ r.order) = true
  · simp [h]
  · simp [h]

theorem shiftDownAfter_preserves_pid (pid p : Int) (r : PlaylistStoryRow) :
    ((fun r : PlaylistStoryRow =>
        if r.playlist_id == pid && p < r.order then { r with order := r.order - 1 } else r)
      r).playlist_id = r.playlist_id := by
  by_cases h : (r.playlist_id == pid && p < r.order) = true
  · simp [h]
  · simp [h]

theorem ordersOf_shiftUpFrom_self (tbl : PSTable) (pid p : Int) :
    ordersOf (shiftUpFrom tbl pid p) pid =
      (ordersOf tbl pid).map (fun o => if p ≤ o then o + 1 else o) := by
  unfold ordersOf shiftUpFrom
  rw [entriesOf_map_preserving tbl _ (shiftUpFrom_preserves_pid pid p) pid]
  rw [← Multiset.map_coe, Multiset.map_map, Multiset.map_map]
  apply Multiset.map_congr rfl
  intro r hr
  have hpid : (r.playlist_id == pid) = true := by
    have := List.of_mem_filter (Multiset.mem_coe.mp hr)
    exact this
  simp only [Function.comp_apply, hpid, Bool.true_and]
  by_cases h : p ≤ r.order
  · simp [h]
  · simp [h]

theorem ordersOf_shiftDownAfter_self (tbl : PSTable) (pid p : Int) :
    ordersOf (shiftDownAfter tbl pid p) pid =
      (ordersOf tbl pid).map (fun o => if p < o then o - 1 else o) := by
  unfold ordersOf shiftDownAfter
  rw [entriesOf_map_preserving tbl _ (shiftDownAfter_preserves_pid pid p) pid]
  rw [← Multiset.map_coe, Multiset.map_map, Multiset.map_map]
  apply Multiset.map_congr rfl
  intro r hr
  have hpid : (r.playlist_id == pid) = true := by
    have := List.of_mem_filter (Multiset.mem_coe.mp hr)
    exact this
  simp only [Function.comp_apply, hpid, Bool.true_and]
  by_cases h : p < r.order
  · simp [h]
  · simp [h]

theorem entriesOf_shiftUpFrom_ne (tbl : PSTable) (pid p qid : Int) (h : qid ≠ pid) :
    entriesOf (shiftUpFrom tbl pid p) qid = entriesOf tbl qid := by
  unfold shiftUpFrom
  rw [entriesOf_map_preserving tbl _ (shiftUpFrom_preserves_pid pid p) qid]
  conv_rhs => rw [← List.map_id (entriesOf tbl qid)]
  apply List.map_congr_left
  intro r hr
  simp only [entriesOf] at hr
  have hq : (r.playlist_id == qid) = true := (List.mem_filter.mp hr).2
  have hne : (r.playlist_id == pid) = false := by
    rw [beq_iff_eq] at hq
    rw [beq_eq_false_iff_ne]
    omega
  simp [hne]

theorem entriesOf_shiftDownAfter_ne (tbl : PSTable) (pid p qid : Int) (h : qid ≠ pid) :
    entriesOf (shiftDownAfter tbl pid p) qid = entriesOf tbl qid := by
  unfold shiftDownAfter
  rw [entriesOf_map_preserving tbl _ (shiftDownAfter_preserves_pid pid p) qid]
  conv_rhs => rw [← List.map_id (entriesOf tbl qid)]
  apply List.map_congr_left
  intro r hr
  simp only [entriesOf] at hr
  have hq : (r.playlist_id == qid) = true := (List.mem_filter.mp hr).2
  have hne : (r.playlist_id == pid) = false := by
    rw [beq_iff_eq] at hq
    rw [beq_eq_false_iff_ne]
    omega
  simp [hne]

theorem filter_eraseP_of_imp {α : Type} (q s : α → Bool)
    (h : ∀ r, q r = true → s r = true) (l : List α) :
    (l.eraseP q).filter s = (l.filter s).eraseP q := by
  induction l with
  | nil => rfl
  | cons r t ih =>
    by_cases hq : q r = true
    · rw [List.eraseP_cons_of_pos hq, List.filter_cons_of_pos (h r hq),
        List.eraseP_cons_of_pos hq]
    · rw [List.eraseP_cons_of_neg hq]
      by_cases hs : s r = true
      · rw [List.filter_cons_of_pos hs, List.filter_cons_of_pos hs,
          List.eraseP_cons_of_neg hq, ih]
      · rw [List.filter_cons_of_neg hs, List.filter_cons_of_neg hs, ih]

theorem filter_eraseP_of_excl {α : Type} (q s : α → Bool)
    (h : ∀ r, q r = true → s r = false) (l : List α) :
    (l.eraseP q).filter s = l.filter s := by
  induction l with
  | nil => rfl
  | cons r t ih =>
    by_cases hq : q r = true
    · rw [List.eraseP_cons_of_pos hq]
      have hs : ¬ s r = true := by simp [h r hq]
      rw [List.filter_cons_of_neg hs]
    · rw [List.eraseP_cons_of_neg hq, List.filter_cons, List.filter_cons, ih]

theorem find?_filter_of_imp {α : Type} (q s : α → Bool)
    (h : ∀ r, q r = true → s r = true) (l : List α) :
    (l.filter s).find? q = l.find? q := by
  induction l with
  | nil => rfl
  | cons r t ih =>
    by_cases hq : q r = true
    · rw [List.filter_cons_of_pos (h r hq), List.find?_cons_of_pos _ hq,
        List.find?_cons_of_pos _ hq]
    · by_cases hs : s r = true
      · rw [List.filter_cons_of_pos hs, List.find?_cons_of_neg _ hq,
          List.find?_cons_of_neg _ hq, ih]
      · rw [List.filter_cons_of_neg hs, List.find?_cons_of_neg _ hq, ih]

theorem coe_eq_cons_eraseP_of_find {α : Type} (q : α → Bool) (l : List α) (a : α)
    (h : l.find? q = some a) :
    (l : Multiset α) = a ::ₘ ((l.eraseP q : List α) : Multiset α) := by
  induction l with
  | nil => simp [List.find?] at h
  | cons r t ih =>
    by_cases hq : q r = true
    · rw [List.find?_cons_of_pos _ hq] at h
      injection h with h
      subst h
      rw [List.eraseP_cons_of_pos hq]
      simp
    · rw [List.find?_cons_of_neg _ hq] at h
      rw [List.eraseP_cons_of_neg hq]
      calc ((r :: t : List α) : Multiset α) = r ::ₘ (t : Multiset α) := by simp
        _ = r ::ₘ (a ::ₘ ((t.eraseP q : List α) : Multiset α)) := by rw [ih h]
        _ = a ::ₘ r ::ₘ ((t.eraseP q : List α) : Multiset α) := Multiset.cons_swap r a _
        _ = a ::ₘ ((r :: t.eraseP q : List α) : Multiset α) := by simp

theorem matchesEntry_imp_pid (pid sid : Int) :
    ∀ r, matchesEntry pid sid r = true → (r.playlist_id == pid) = true := by
  intro r hr
  exact (Bool.and_eq_true_iff.mp hr).1

theorem ordersOf_eraseP_found (tbl : PSTable) (pid sid : Int) (row : PlaylistStoryRow)
    (h : tbl.find? (matchesEntry pid sid) = some row) :
    ordersOf tbl pid = row.order ::ₘ ordersOf (tbl.eraseP (matchesEntry pid sid)) pid := by
  have himp := matchesEntry_imp_pid pid sid
  have hE : (entriesOf tbl pid).find? (matchesEntry pid sid) = some row := by
    rw [entriesOf, find?_filter_of_imp _ _ himp]
    exact h
  have hdecomp := coe_eq_cons_eraseP_of_find _ _ _ hE
  have hfe : entriesOf (tbl.eraseP (matchesEntry pid sid)) pid =
      (entriesOf tbl pid).eraseP (matchesEntry pid sid) :=
    filter_eraseP_of_imp _ _ himp tbl
  unfold ordersOf
  rw [hdecomp, hfe, Multiset.map_cons]

theorem entriesOf_eraseP_ne (tbl : PSTable) (pid sid qid : Int) (h : qid ≠ pid) :
    entriesOf (tbl.eraseP (matchesEntry pid sid)) qid = entriesOf tbl qid := by
  apply filter_eraseP_of_excl
  intro r hr
  have hp := matchesEntry_imp_pid pid sid r hr
  rw [beq_iff_eq] at hp
  rw [beq_eq_false_iff_ne]
  omega

theorem card_ordersOf (tbl : PSTable) (pid : Int) :
    (ordersOf tbl pid).card = countOf tbl pid := by
  simp [ordersOf, countOf]

theorem dense_of_orders (tbl : PSTable) (pid : Int) (n : Nat)
    (h : ordersOf tbl pid = rangeZ n) : dense tbl pid := by
  have hc : countOf tbl pid = n := by
    rw [← card_ordersOf tbl pid, h, card_rangeZ]
  unfold dense
  rw [hc, h]

/-! ### Density preservation -/

theorem ordersOf_append (t1 t2 : PSTable) (pid : Int) :
    ordersOf (t1 ++ t2) pid = ordersOf t1 pid + ordersOf t2 pid := by
  unfold ordersOf
  rw [entriesOf_append, ← Multiset.coe_add, Multiset.map_add]

theorem ordersOf_single_self (pid sid v : Int) :
    ordersOf [⟨pid, sid, v⟩] pid = {v} := by
  simp [ordersOf, entriesOf]

theorem ordersOf_single_ne (pid sid v qid : Int) (h : qid ≠ pid) :
    ordersOf [⟨pid, sid, v⟩] qid = 0 := by
  have : ((pid == qid) = false) := by
    rw [beq_eq_false_iff_ne]
    omega
  simp [ordersOf, entriesOf, this]

theorem clampPos_nonneg (p : Int) (n : Nat) : 0 ≤ clampPos p n :=
  le_max_left 0 _

theorem clampPos_le (p : Int) (n : Nat) : clampPos p n ≤ (n : Int) :=
  max_le (Int.ofNat_nonneg n) (min_le_right p n)

/-- The range shift plus positioned insert preserves density of every
playlist. -/
theorem dense_insert (tbl : PSTable) (pid sid vp : Int) (qid : Int)
    (h0 : 0 ≤ vp) (hn : vp ≤ (countOf tbl pid : Int))
    (hd : dense tbl qid) (hdp : dense tbl pid) :
    dense (shiftUpFrom tbl pid vp ++ [⟨pid, sid, vp⟩]) qid := by
  by_cases hq : qid = pid
  · subst hq
    apply dense_of_orders _ _ (countOf tbl qid + 1)
    rw [ordersOf_append, ordersOf_shiftUpFrom_self, ordersOf_single_self]
    unfold dense at hdp
    rw [hdp]
    exact rangeZ_shift_insert (countOf tbl qid) h0 hn
  · apply dense_of_orders _ _ (countOf tbl qid)
    rw [ordersOf_append, ordersOf_single_ne _ _ _ _ hq]
    unfold ordersOf
    rw [entriesOf_shiftUpFrom_ne _ _ _ _ hq]
    unfold dense at hd
    rw [add_zero]
    exact hd

/-- The append insert (no explicit position) preserves density of every
playlist. -/
theorem dense_append_top (tbl : PSTable) (pid sid : Int) (qid : Int)
    (hd : dense tbl qid) (hdp : dense tbl pid) :
    dense (tbl ++ [⟨pid, sid, (countOf tbl pid : Int)⟩]) qid := by
  by_cases hq : qid = pid
  · subst hq
    apply dense_of_orders _ _ (countOf tbl qid + 1)
    rw [ordersOf_append, ordersOf_single_self]
    unfold dense at hdp
    rw [hdp]
    exact rangeZ_add_top (countOf tbl qid)
  · apply dense_of_orders _ _ (countOf tbl qid)
    rw [ordersOf_append, ordersOf_single_ne _ _ _ _ hq, add_zero]
    exact hd

/-- The delete of a found entry plus the decrement shift preserves density of
every playlist. -/
theorem dense_remove (tbl : PSTable) (pid sid : Int) (row : PlaylistStoryRow)
    (qid : Int) (hfind : tbl.find? (matchesEntry pid sid) = some row)
    (hd : dense tbl qid) (hdp : dense tbl pid) :
    dense (shiftDownAfter (tbl.eraseP (matchesEntry pid sid)) pid row.order) qid := by
  by_cases hq : qid = pid
  · subst hq
    have hdecomp := ordersOf_eraseP_found tbl qid sid row hfind
    unfold dense at hdp
    rw [hdp] at hdecomp
    have hmem : row.order ∈ rangeZ (countOf tbl qid) := by
      rw [hdecomp]
      exact Multiset.mem_cons_self _ _
    rcases mem_rangeZ.mp hmem with ⟨h0, hlt⟩
    have hM : ordersOf (tbl.eraseP (matchesEntry qid sid)) qid =
        (rangeZ (countOf tbl qid)).erase row.order := by
      rw [hdecomp, Multiset.erase_cons_head]
    apply dense_of_orders _ _ (countOf tbl qid - 1)
    rw [ordersOf_shiftDownAfter_self, hM]
    exact rangeZ_erase_shift (countOf tbl qid) h0 hlt
  · apply dense_of_orders _ _ (countOf tbl qid)
    unfold ordersOf
    rw [entriesOf_shiftDownAfter_ne _ _ _ _ hq, entriesOf_eraseP_ne _ _ _ _ hq]
    exact hd

/-- One completed add-story handler invocation preserves density of every
playlist: error responses leave the state unchanged, and both insert shapes
keep each playlist's ordering dense. -/
theorem addStoryPOST_preserves_dense (db : DB) (userId pid sid : Int)
    (position : Option Int) (hd : ∀ qid, dense db.playlistStories qid) :
    ∀ qid, dense (addStoryPOST db userId pid sid position).db.playlistStories qid := by
  intro qid
  unfold addStoryPOST
  split
  · exact hd qid
  · split
    · exact hd qid
    · split
      · exact hd qid
      · split
        · exact hd qid
        · split
          · exact hd qid
          · split
            · exact hd qid
            · split
              · exact dense_insert _ _ _ _ _ (clampPos_nonneg _ _) (clampPos_le _ _)
                  (hd qid) (hd pid)
              · exact dense_append_top _ _ _ _ (hd qid) (hd pid)

/-- One completed remove-story handler invocation preserves density of every
playlist. -/
theorem removeStoryDELETE_preserves_dense (db : DB) (userId pid sid : Int)
    (hd : ∀ qid, dense db.playlistStories qid) :
    ∀ qid, dense (removeStoryDELETE db userId pid sid).db.playlistStories qid := by
  intro qid
  unfold removeStoryDELETE
  split
  · exact hd qid
  · split
    · exact hd qid
    · split
      · exact hd qid
      · split
        · exact hd qid
        · next row hfind =>
            exact dense_remove _ _ _ _ _ hfind (hd qid) (hd pid)

theorem countP_eraseP_found {α : Type} (q : α → Bool) (l : List α) (a : α)
    (h : l.find? q = some a) : (l.eraseP q).countP q + 1 = l.countP q := by
  induction l with
  | nil => simp [List.find?] at h
  | cons r t ih =>
    by_cases hq : q r = true
    · rw [List.eraseP_cons_of_pos hq, List.countP_cons_of_pos _ _ hq]
    · rw [List.find?_cons_of_neg _ hq] at h
      rw [List.eraseP_cons_of_neg hq, List.countP_cons_of_neg _ _ hq,
        List.countP_cons_of_neg _ _ hq, ih h]

theorem length_filter_split {α : Type} (p q : α → Bool) (hq : ∀ a, q a = !(p a))
    (l : List α) : (l.filter p).length + (l.filter q).length = l.length := by
  induction l with
  | nil => rfl
  | cons r t ih =>
    by_cases h : p r = true
    · rw [List.filter_cons_of_pos h, List.filter_cons_of_neg (by simp [hq r, h])]
      simp only [List.length_cons]
      omega
    · rw [List.filter_cons_of_neg h, List.filter_cons_of_pos (by simp [hq r, h])]
      simp only [List.length_cons]
      omega

/-! ### Claim theorems -/

/-- C1: for every playlist and every sequence of sequentially executed
add-story and remove-story operations starting from a state satisfying the
invariant, after each completed operation the multiset of `order` values of
the playlist's entries equals `{0, ..., n-1}` where `n` is the current entry
count — dense, zero-based, no duplicates, no gaps.  (Every prefix of `ops` is
itself a sequence, so the conclusion holds after each operation.) -/
theorem playlist_order_invariant (db : DB) (ops : List PlaylistOp)
    (hd : ∀ qid, dense db.playlistStories qid) :
    ∀ qid, dense (applyOps db ops).playlistStories qid := by
  induction ops generalizing db with
  | nil => exact hd
  | cons op rest ih =>
    have hstep : ∀ qid, dense (applyOp db op).playlistStories qid := by
      cases op with
      | add u p s pos => exact addStoryPOST_preserves_dense db u p s pos hd
      | remove u p s => exact removeStoryDELETE_preserves_dense db u p s hd
    have : applyOps db (op :: rest) = applyOps (applyOp db op) rest := rfl
    rw [this]
    exact ih (applyOp db op) hstep

/-- Witness for C1 at a concrete two-entry playlist and a concrete
insert/remove sequence. -/
theorem playlist_order_invariant_witness :
    dense (applyOps
      ⟨[⟨1, 10, none⟩], [⟨1, 1, "mine"⟩], [1, 2, 3],
        [⟨1, 1, 0⟩, ⟨1, 2, 1⟩], [], []⟩
      [.add 10 1 3 (some 0), .remove 10 1 2, .add 10 1 2 none]).playlistStories 1 := by
  have hd : ∀ qid, dense ([⟨1, 1, 0⟩, ⟨1, 2, 1⟩] : PSTable) qid := by
    intro qid
    by_cases h : qid = 1
    · subst h
      decide
    · have h1 : ((1 : Int) == qid) = false := by
        rw [beq_eq_false_iff_ne]
        omega
      unfold dense ordersOf countOf entriesOf rangeZ
      simp [h1]
  exact playlist_order_invariant
    ⟨[⟨1, 10, none⟩], [⟨1, 1, "mine"⟩], [1, 2, 3], [⟨1, 1, 0⟩, ⟨1, 2, 1⟩], [], []⟩
    [.add 10 1 3 (some 0), .remove 10 1 2, .add 10 1 2 none] hd 1

/-- C2 fails on the code: the range shift and the entry insert/delete are
separate awaited store calls with no transaction, so the execution in which
the shift commits and the insert fails is a real outcome.  At the concrete
two-entry playlist, inserting story 3 at position 0 with the `create` call
failing leaves the shift committed: the orders become `{1, 2}` (not dense)
and no entry for story 3 exists.  Likewise for remove: deleting the entry
with a failing decrement `updateMany` leaves the orders `{1}`. -/
theorem addStory_nontransactional_partial_state :
    addStoryMutationRun [⟨1, 1, 0⟩, ⟨1, 2, 1⟩] 1 3 0 .ok .fail
        = [⟨1, 1, 1⟩, ⟨1, 2, 2⟩] ∧
    ¬ dense (addStoryMutationRun [⟨1, 1, 0⟩, ⟨1, 2, 1⟩] 1 3 0 .ok .fail) 1 ∧
    (∀ r ∈ addStoryMutationRun [⟨1, 1, 0⟩, ⟨1, 2, 1⟩] 1 3 0 .ok .fail,
        r.story_id ≠ 3) ∧
    removeStoryMutationRun [⟨1, 1, 0⟩, ⟨1, 2, 1⟩] 1 1 0 .ok .fail = [⟨1, 2, 1⟩] ∧
    ¬ dense (removeStoryMutationRun [⟨1, 1, 0⟩, ⟨1, 2, 1⟩] 1 1 0 .ok .fail) 1 := by
  decide

/-- C3: on add-story with an explicit numeric position the position is
clamped to `[0, currentCount]`; every existing entry of the playlist with
`order >=` the clamped position is incremented, entries below it are
unchanged, and the new entry carries the clamped position; without an
explicit position the entry is appended with `order = currentCount`. -/
theorem addStory_insert_spec (db : DB) (userId pid sid p : Int)
    (pl : PlaylistRow) (pr : ProfileRow)
    (hpl : findPlaylist db pid = some pl)
    (hpr : findProfile db pl.profile_id = some pr)
    (howner : pr.user_id = userId)
    (hsid : sid ≠ 0)
    (hstory : db.stories.contains sid = true)
    (hdup : db.playlistStories.any (matchesEntry pid sid) = false) :
    (addStoryPOST db userId pid sid (some p)).status = 201 ∧
    (addStoryPOST db userId pid sid (some p)).newOrder =
      some (clampPos p (countOf db.playlistStories pid)) ∧
    0 ≤ clampPos p (countOf db.playlistStories pid) ∧
    clampPos p (countOf db.playlistStories pid) ≤ (countOf db.playlistStories pid : Int) ∧
    (0 ≤ p → p ≤ (countOf db.playlistStories pid : Int) →
      clampPos p (countOf db.playlistStories pid) = p) ∧
    ((countOf db.playlistStories pid : Int) < p →
      clampPos p (countOf db.playlistStories pid) = (countOf db.playlistStories pid : Int)) ∧
    (p < 0 → clampPos p (countOf db.playlistStories pid) = 0) ∧
    (⟨pid, sid, clampPos p (countOf db.playlistStories pid)⟩ : PlaylistStoryRow) ∈
      (addStoryPOST db userId pid sid (some p)).db.playlistStories ∧
    (∀ r ∈ db.playlistStories, r.playlist_id = pid →
      clampPos p (countOf db.playlistStories pid) ≤ r.order →
      ({ r with order := r.order + 1 } : PlaylistStoryRow) ∈
        (addStoryPOST db userId pid sid (some p)).db.playlistStories) ∧
    (∀ r ∈ db.playlistStories, r.playlist_id = pid →
      r.order < clampPos p (countOf db.playlistStories pid) →
      r ∈ (addStoryPOST db userId pid sid (some p)).db.playlistStories) ∧
    (∀ r ∈ db.playlistStories, r.playlist_id ≠ pid →
      r ∈ (addStoryPOST db userId pid sid (some p)).db.playlistStories) ∧
    addStoryPOST db userId pid sid none =
      ⟨201,
       { db with playlistStories :=
           db.playlistStories ++ [⟨pid, sid, (countOf db.playlistStories pid : Int)⟩] },
       some (countOf db.playlistStories pid : Int)⟩ := by
  have h1 : (sid == 0) = false := beq_eq_false_iff_ne.mpr hsid
  have h2 : (pr.user_id != userId) = false := by
    simp [bne, howner]
  have h3 : (!(db.stories.contains sid)) = false := by
    rw [hstory]
    rfl
  have hres : ∀ position, addStoryPOST db userId pid sid position =
      (match position with
       | some q =>
         ⟨201,
          { db with playlistStories :=
              shiftUpFrom db.playlistStories pid (clampPos q (countOf db.playlistStories pid)) ++
                [⟨pid, sid, clampPos q (countOf db.playlistStories pid)⟩] },
          some (clampPos q (countOf db.playlistStories pid))⟩
       | none =>
         ⟨201,
          { db with playlistStories :=
              db.playlistStories ++ [⟨pid, sid, (countOf db.playlistStories pid : Int)⟩] },
          some (countOf db.playlistStories pid : Int)⟩) := by
    intro position
    simp only [addStoryPOST, hpl, hpr, h1, h2, h3, hdup, Bool.false_eq_true, if_false]
  refine ⟨by rw [hres], by rw [hres], clampPos_nonneg _ _, clampPos_le _ _,
    ?_, ?_, ?_, ?_, ?_, ?_, ?_, by rw [hres]⟩
  · intro hp0 hpn
    rw [clampPos, min_eq_left hpn, max_eq_right hp0]
  · intro hgt
    rw [clampPos, min_eq_right (le_of_lt hgt), max_eq_right (Int.ofNat_nonneg _)]
  · intro hneg
    have hpn : p ≤ (countOf db.playlistStories pid : Int) := by
      have := Int.ofNat_nonneg (countOf db.playlistStories pid)
      omega
    rw [clampPos, min_eq_left hpn, max_eq_left (le_of_lt hneg)]
  · rw [hres]
    simp
  · intro r hr hrpid hrord
    rw [hres]
    simp only [List.mem_append]
    left
    have hmem := List.mem_map_of_mem
      (fun r : PlaylistStoryRow =>
        if r.playlist_id == pid && clampPos p (countOf db.playlistStories pid) ≤ r.order
        then { r with order := r.order + 1 } else r) hr
    have hcond : (r.playlist_id == pid &&
        decide (clampPos p (countOf db.playlistStories pid) ≤ r.order)) = true := by
      rw [Bool.and_eq_true_iff]
      exact ⟨beq_iff_eq.mpr hrpid, decide_eq_true hrord⟩
    rw [shiftUpFrom]
    simpa [hcond] using hmem
  · intro r hr hrpid hrord
    rw [hres]
    simp only [List.mem_append]
    left
    have hmem := List.mem_map_of_mem
      (fun r : PlaylistStoryRow =>
        if r.playlist_id == pid && clampPos p (countOf db.playlistStories pid) ≤ r.order
        then { r with order := r.order + 1 } else r) hr
    have hcond : (r.playlist_id == pid &&
        decide (clampPos p (countOf db.playlistStories pid) ≤ r.order)) = false := by
      rw [Bool.and_eq_false_iff]
      right
      simpa using not_le.mpr hrord
    rw [shiftUpFrom]
    simpa [hcond] using hmem
  · intro r hr hrpid
    rw [hres]
    simp only [List.mem_append]
    left
    have hmem := List.mem_map_of_mem
      (fun r : PlaylistStoryRow =>
        if r.playlist_id == pid && clampPos p (countOf db.playlistStories pid) ≤ r.order
        then { r with order := r.order + 1 } else r) hr
    have hcond : (r.playlist_id == pid &&
        decide (clampPos p (countOf db.playlistStories pid) ≤ r.order)) = false := by
      rw [Bool.and_eq_false_iff]
      left
      exact beq_eq_false_iff_ne.mpr hrpid
    rw [shiftUpFrom]
    simpa [hcond] using hmem

/-- Witness for C3 at a concrete playlist: inserting story 3 at requested
position 5 into a two-entry playlist clamps to position 2. -/
theorem addStory_insert_spec_witness :
    (addStoryPOST ⟨[⟨1, 10, none⟩], [⟨1, 1, "pl"⟩], [1, 2, 3],
        [⟨1, 1, 0⟩, ⟨1, 2, 1⟩], [], []⟩ 10 1 3 (some 5)).status = 201 ∧
    (addStoryPOST ⟨[⟨1, 10, none⟩], [⟨1, 1, "pl"⟩], [1, 2, 3],
        [⟨1, 1, 0⟩, ⟨1, 2, 1⟩], [], []⟩ 10 1 3 (some 5)).newOrder =
      some (clampPos 5 (countOf [⟨1, 1, 0⟩, ⟨1, 2, 1⟩] 1)) := by
  have h := addStory_insert_spec
    ⟨[⟨1, 10, none⟩], [⟨1, 1, "pl"⟩], [1, 2, 3], [⟨1, 1, 0⟩, ⟨1, 2, 1⟩], [], []⟩
    10 1 3 5 ⟨1, 1, "pl"⟩ ⟨1, 10, none⟩ (by decide) (by decide) rfl (by decide)
    (by decide) (by decide)
  exact ⟨h.1, h.2.1⟩

/-- C4: remove-story deletes the found entry; every remaining entry of the
playlist with `order` strictly greater than the removed entry's `order` is
decremented; remaining entries at or below it, and entries of other
playlists, are unchanged. -/
theorem removeStory_spec (db : DB) (userId pid sid : Int)
    (pl : PlaylistRow) (pr : ProfileRow) (row : PlaylistStoryRow)
    (hpl : findPlaylist db pid = some pl)
    (hpr : findProfile db pl.profile_id = some pr)
    (howner : pr.user_id = userId)
    (hfind : db.playlistStories.find? (matchesEntry pid sid) = some row) :
    (removeStoryDELETE db userId pid sid).status = 200 ∧
    (removeStoryDELETE db userId pid sid).db.playlistStories.length + 1 =
      db.playlistStories.length ∧
    (removeStoryDELETE db userId pid sid).db.playlistStories.countP
        (matchesEntry pid sid) + 1 =
      db.playlistStories.countP (matchesEntry pid sid) ∧
    (∀ r ∈ db.playlistStories.eraseP (matchesEntry pid sid),
       (r.playlist_id = pid → row.order < r.order →
          ({ r with order := r.order - 1 } : PlaylistStoryRow) ∈
            (removeStoryDELETE db userId pid sid).db.playlistStories) ∧
       (r.playlist_id = pid → r.order ≤ row.order →
          r ∈ (removeStoryDELETE db userId pid sid).db.playlistStories) ∧
       (r.playlist_id ≠ pid →
          r ∈ (removeStoryDELETE db userId pid sid).db.playlistStories)) := by
  have h2 : (pr.user_id != userId) = false := by
    simp [bne, howner]
  have hres : removeStoryDELETE db userId pid sid =
      ⟨200, { db with playlistStories := shiftDownAfter (db.playlistStories.eraseP (matchesEntry pid sid)) pid row.order }⟩ := by
    simp only [removeStoryDELETE, hpl, hpr, h2, Bool.false_eq_true, if_false, hfind]
  have hmem : row ∈ db.playlistStories := List.mem_of_find?_eq_some hfind
  have hq : matchesEntry pid sid row = true := List.find?_some hfind
  have hF : ∀ r : PlaylistStoryRow,
      matchesEntry pid sid
        (if r.playlist_id == pid && row.order < r.order
         then { r with order := r.order - 1 } else r) = matchesEntry pid sid r := by
    intro r
    by_cases hc : (r.playlist_id == pid && decide (row.order < r.order)) = true
    · simp [hc, matchesEntry]
    · simp [hc]
  refine ⟨by rw [hres], ?_, ?_, ?_⟩
  · rw [hres]
    show (shiftDownAfter (db.playlistStories.eraseP (matchesEntry pid sid))
        pid row.order).length + 1 = db.playlistStories.length
    rw [shiftDownAfter, List.length_map,
      List.length_eraseP_of_mem hmem hq]
    have := List.length_pos_of_mem hmem
    omega
  · rw [hres]
    show (shiftDownAfter (db.playlistStories.eraseP (matchesEntry pid sid))
        pid row.order).countP (matchesEntry pid sid) + 1 =
      db.playlistStories.countP (matchesEntry pid sid)
    rw [shiftDownAfter, List.countP_map]
    have hcongr : List.countP
        ((matchesEntry pid sid) ∘ fun r : PlaylistStoryRow =>
          if r.playlist_id == pid && row.order < r.order
          then { r with order := r.order - 1 } else r)
        (db.playlistStories.eraseP (matchesEntry pid sid)) =
        List.countP (matchesEntry pid sid)
          (db.playlistStories.eraseP (matchesEntry pid sid)) := by
      apply List.countP_congr
      intro r _
      rw [Function.comp_apply, hF r]
    rw [hcongr, countP_eraseP_found _ _ _ hfind]
  · intro r hr
    have hmap := List.mem_map_of_mem
      (fun r : PlaylistStoryRow =>
        if r.playlist_id == pid && row.order < r.order
        then { r with order := r.order - 1 } else r) hr
    refine ⟨?_, ?_, ?_⟩
    · intro hrpid hrord
      rw [hres]
      show _ ∈ shiftDownAfter (db.playlistStories.eraseP (matchesEntry pid sid))
        pid row.order
      have hcond : (r.playlist_id == pid && decide (row.order < r.order)) = true := by
        rw [Bool.and_eq_true_iff]
        exact ⟨beq_iff_eq.mpr hrpid, decide_eq_true hrord⟩
      rw [shiftDownAfter]
      simpa [hcond] using hmap
    · intro hrpid hrord
      rw [hres]
      show _ ∈ shiftDownAfter (db.playlistStories.eraseP (matchesEntry pid sid))
        pid row.order
      have hcond : (r.playlist_id == pid && decide (row.order < r.order)) = false := by
        rw [Bool.and_eq_false_iff]
        right
        simpa using not_lt.mpr hrord
      rw [shiftDownAfter]
      simpa [hcond] using hmap
    · intro hrpid
      rw [hres]
      show r ∈ shiftDownAfter (db.playlistStories.eraseP (matchesEntry pid sid))
        pid row.order
      have hcond : (r.playlist_id == pid && decide (row.order < r.order)) = false := by
        rw [Bool.and_eq_false_iff]
        left
        exact beq_eq_false_iff_ne.mpr hrpid
      rw [shiftDownAfter]
      simpa [hcond] using hmap

/-- Witness for C4: removing story 1 (at order 0) from a three-entry
playlist. -/
theorem removeStory_spec_witness :
    (removeStoryDELETE ⟨[⟨1, 10, none⟩], [⟨1, 1, "pl"⟩], [1, 2, 3],
        [⟨1, 1, 0⟩, ⟨1, 2, 1⟩, ⟨1, 3, 2⟩], [], []⟩ 10 1 1).status = 200 ∧
    (removeStoryDELETE ⟨[⟨1, 10, none⟩], [⟨1, 1, "pl"⟩], [1, 2, 3],
        [⟨1, 1, 0⟩, ⟨1, 2, 1⟩, ⟨1, 3, 2⟩], [], []⟩ 10 1 1).db.playlistStories.length + 1 =
      ([⟨1, 1, 0⟩, ⟨1, 2, 1⟩, ⟨1, 3, 2⟩] : PSTable).length := by
  have h := removeStory_spec
    ⟨[⟨1, 10, none⟩], [⟨1, 1, "pl"⟩], [1, 2, 3],
      [⟨1, 1, 0⟩, ⟨1, 2, 1⟩, ⟨1, 3, 2⟩], [], []⟩
    10 1 1 ⟨1, 1, "pl"⟩ ⟨1, 10, none⟩ ⟨1, 1, 0⟩ (by decide) (by decide) rfl (by decide)
  exact ⟨h.1, h.2.1⟩

/-- C10: remove-story for a pair with no matching playlist entry returns 404
and performs no mutation at all. -/
theorem removeStory_notfound_spec (db : DB) (userId pid sid : Int)
    (pl : PlaylistRow) (pr : ProfileRow)
    (hpl : findPlaylist db pid = some pl)
    (hpr : findProfile db pl.profile_id = some pr)
    (howner : pr.user_id = userId)
    (hfind : db.playlistStories.find? (matchesEntry pid sid) = none) :
    removeStoryDELETE db userId pid sid = ⟨404, db⟩ := by
  have h2 : (pr.user_id != userId) = false := by
    simp [bne, howner]
  simp only [removeStoryDELETE, hpl, hpr, h2, Bool.false_eq_true, if_false, hfind]

/-- Witness for C10: removing story 9, which the playlist does not contain. -/
theorem removeStory_notfound_spec_witness :
    removeStoryDELETE
        ⟨[⟨1, 10, none⟩], [⟨1, 1, "pl"⟩], [1, 2, 3], [⟨1, 1, 0⟩, ⟨1, 2, 1⟩], [], []⟩
        10 1 9 =
      ⟨404,
       ⟨[⟨1, 10, none⟩], [⟨1, 1, "pl"⟩], [1, 2, 3], [⟨1, 1, 0⟩, ⟨1, 2, 1⟩], [], []⟩⟩ :=
  removeStory_notfound_spec
    ⟨[⟨1, 10, none⟩], [⟨1, 1, "pl"⟩], [1, 2, 3], [⟨1, 1, 0⟩, ⟨1, 2, 1⟩], [], []⟩
    10 1 9 ⟨1, 1, "pl"⟩ ⟨1, 10, none⟩ (by decide) (by decide) rfl (by decide)

/-- C5: the delete-profile transaction removes, in source order, the
entries of the profile's playlists (skipped when it has none), its
playlists, its favorites, its category links and the profile row, and the
returned counts are exactly the numbers of rows deleted per dependent kind.
The last conjunct is the spec's concrete example: a profile with 2 playlists
holding 3 and 0 entries, 1 favorite and 2 category links (next to an
untouched second profile) reports exactly 3, 2, 1, 2. -/
theorem deleteProfile_tx_spec (db : DB) (profileId : Int) :
    ((runDeleteTx db profileId).2.playlists +
        (runDeleteTx db profileId).1.playlists.length = db.playlists.length) ∧
    ((runDeleteTx db profileId).2.favorites +
        (runDeleteTx db profileId).1.favorites.length = db.favorites.length) ∧
    ((runDeleteTx db profileId).2.profileCategories +
        (runDeleteTx db profileId).1.profileCategories.length =
          db.profileCategories.length) ∧
    ((runDeleteTx db profileId).2.playlistStories +
        (runDeleteTx db profileId).1.playlistStories.length =
          db.playlistStories.length) ∧
    (∀ pl : PlaylistRow, pl ∈ (runDeleteTx db profileId).1.playlists ↔
        (pl ∈ db.playlists ∧ pl.profile_id ≠ profileId)) ∧
    (∀ f : FavoriteRow, f ∈ (runDeleteTx db profileId).1.favorites ↔
        (f ∈ db.favorites ∧ f.profile_id ≠ profileId)) ∧
    (∀ c : ProfileCategoryRow, c ∈ (runDeleteTx db profileId).1.profileCategories ↔
        (c ∈ db.profileCategories ∧ c.profile_id ≠ profileId)) ∧
    (∀ r : PlaylistStoryRow, r ∈ (runDeleteTx db profileId).1.playlistStories ↔
        (r ∈ db.playlistStories ∧
          ((db.playlists.filter (fun pl => pl.profile_id == profileId)).map
              (fun pl => pl.id)).contains r.playlist_id = false)) ∧
    (∀ q ∈ (runDeleteTx db profileId).1.profiles, q ∈ db.profiles) ∧
    (∀ q : ProfileRow, q ∈ db.profiles → q.id ≠ profileId →
        q ∈ (runDeleteTx db profileId).1.profiles) ∧
    runDeleteTx
        ⟨[⟨1, 10, some "photo"⟩, ⟨5, 11, none⟩],
         [⟨1, 1, "a"⟩, ⟨2, 1, "b"⟩, ⟨9, 5, "z"⟩], [1, 2, 3],
         [⟨1, 1, 0⟩, ⟨1, 2, 1⟩, ⟨1, 3, 2⟩, ⟨9, 1, 0⟩],
         [⟨1, 2⟩, ⟨5, 1⟩], [⟨1, 7⟩, ⟨1, 8⟩, ⟨5, 7⟩]⟩ 1 =
      (⟨[⟨5, 11, none⟩], [⟨9, 5, "z"⟩], [1, 2, 3], [⟨9, 1, 0⟩], [⟨5, 1⟩], [⟨5, 7⟩]⟩,
       ⟨3, 2, 1, 2⟩) := by
  refine ⟨?_, ?_, ?_, ?_, ?_, ?_, ?_, ?_, ?_, ?_, by decide⟩
  · exact length_filter_split _ _ (fun a => rfl) db.playlists
  · exact length_filter_split _ _ (fun a => rfl) db.favorites
  · exact length_filter_split _ _ (fun a => rfl) db.profileCategories
  · simp only [runDeleteTx]
    by_cases hl : ((db.playlists.filter (fun pl => pl.profile_id == profileId)).map (fun pl => pl.id)).length > 0
    · rw [if_pos hl, if_pos hl]
      exact length_filter_split _ _ (fun a => rfl) db.playlistStories
    · rw [if_neg hl, if_neg hl]
      omega
  · intro pl
    show pl ∈ db.playlists.filter (fun pl => pl.profile_id != profileId) ↔ _
    rw [List.mem_filter, bne_iff_ne]
  · intro f
    show f ∈ db.favorites.filter (fun f => f.profile_id != profileId) ↔ _
    rw [List.mem_filter, bne_iff_ne]
  · intro c
    show c ∈ db.profileCategories.filter (fun c => c.profile_id != profileId) ↔ _
    rw [List.mem_filter, bne_iff_ne]
  · intro r
    simp only [runDeleteTx]
    by_cases hl : ((db.playlists.filter (fun pl => pl.profile_id == profileId)).map (fun pl => pl.id)).length > 0
    · rw [if_pos hl, List.mem_filter, Bool.not_eq_eq_eq_not, Bool.not_true]
    · rw [if_neg hl]
      have hnil : (db.playlists.filter (fun pl => pl.profile_id == profileId)).map
          (fun pl => pl.id) = [] := by
        rcases List.eq_nil_or_concat ((db.playlists.filter (fun pl => pl.profile_id == profileId)).map (fun pl => pl.id)) with h | ⟨l, a, h⟩
        · exact h
        · exfalso
          apply hl
          rw [h]
          simp
      rw [hnil]
      simp [List.contains]
  · intro q hq
    exact List.mem_of_mem_eraseP hq
  · intro q hq hne
    have hnq : ¬ ((fun pr : ProfileRow => pr.id == profileId) q = true) := by
      simpa using hne
    exact (List.mem_eraseP_of_neg (p := fun pr : ProfileRow => pr.id == profileId) hnq).mpr hq

/-- Witness for C5: the spec's concrete example reports counts 3, 2, 1, 2. -/
theorem deleteProfile_tx_spec_witness :
    (runDeleteTx
        ⟨[⟨1, 10, some "photo"⟩, ⟨5, 11, none⟩],
         [⟨1, 1, "a"⟩, ⟨2, 1, "b"⟩, ⟨9, 5, "z"⟩], [1, 2, 3],
         [⟨1, 1, 0⟩, ⟨1, 2, 1⟩, ⟨1, 3, 2⟩, ⟨9, 1, 0⟩],
         [⟨1, 2⟩, ⟨5, 1⟩], [⟨1, 7⟩, ⟨1, 8⟩, ⟨5, 7⟩]⟩ 1).2 = ⟨3, 2, 1, 2⟩ := by
  have h := deleteProfile_tx_spec
    ⟨[⟨1, 10, some "photo"⟩, ⟨5, 11, none⟩],
     [⟨1, 1, "a"⟩, ⟨2, 1, "b"⟩, ⟨9, 5, "z"⟩], [1, 2, 3],
     [⟨1, 1, 0⟩, ⟨1, 2, 1⟩, ⟨1, 3, 2⟩, ⟨9, 1, 0⟩],
     [⟨1, 2⟩, ⟨5, 1⟩], [⟨1, 7⟩, ⟨1, 8⟩, ⟨5, 7⟩]⟩ 1
  exact congrArg Prod.snd h.2.2.2.2.2.2.2.2.2.2

/-- C6: if the delete-profile transaction fails, it rolls back — the
returned database state is exactly the original, so no dependent rows and
not the profile row are removed — and the handler surfaces the failure as a
single HTTP 500 with an error body. -/
theorem deleteProfile_tx_failure (db : DB) (userId profileId : Int)
    (publicUrl : String) (r2 : Bool) (pr : ProfileRow)
    (hpr : findProfile db profileId = some pr)
    (howner : pr.user_id = userId) :
    deleteProfileDELETE db userId profileId publicUrl false r2 =
      ⟨500, db, none, none, none, false, some "Failed to delete profile"⟩ := by
  have h2 : (pr.user_id != userId) = false := by
    simp [bne, howner]
  simp [deleteProfileDELETE, hpr, h2]

/-- Witness for C6 at a concrete profile. -/
theorem deleteProfile_tx_failure_witness :
    deleteProfileDELETE ⟨[⟨1, 10, some "https://pub/x/y.png"⟩], [], [], [], [], []⟩
        10 1 "https://pub" false true =
      ⟨500, ⟨[⟨1, 10, some "https://pub/x/y.png"⟩], [], [], [], [], []⟩,
       none, none, none, false, some "Failed to delete profile"⟩ :=
  deleteProfile_tx_failure ⟨[⟨1, 10, some "https://pub/x/y.png"⟩], [], [], [], [], []⟩
    10 1 "https://pub" true ⟨1, 10, some "https://pub/x/y.png"⟩ (by decide) rfl

/-- C7: the object-store photo delete is attempted only after the database
transaction committed (no attempt when it fails); its own failure changes
nothing observable except the error log: the handler still returns 200 with
`deleted.photo` true exactly when the profile had a (non-empty) photo URL,
and the key of the attempted delete is the stored URL with the public-URL
prefix stripped. -/
theorem deleteProfile_photo_besteffort (db : DB) (userId profileId : Int)
    (publicUrl : String) (pr : ProfileRow)
    (hpr : findProfile db profileId = some pr)
    (howner : pr.user_id = userId) :
    (∀ r2, (deleteProfileDELETE db userId profileId publicUrl false r2).attemptedKey
        = none) ∧
    (deleteProfileDELETE db userId profileId publicUrl true false).status = 200 ∧
    (deleteProfileDELETE db userId profileId publicUrl true false).deletedPhoto =
      some (truthyUrl pr.photo_url) ∧
    (deleteProfileDELETE db userId profileId publicUrl true
        false).attemptedKey.isSome = truthyUrl pr.photo_url ∧
    (∀ u, pr.photo_url = some u → u ≠ "" →
      (deleteProfileDELETE db userId profileId publicUrl true false).attemptedKey =
        some (r2KeyOf publicUrl u)) ∧
    (deleteProfileDELETE db userId profileId publicUrl true false).db =
      (deleteProfileDELETE db userId profileId publicUrl true true).db ∧
    (deleteProfileDELETE db userId profileId publicUrl true false).status =
      (deleteProfileDELETE db userId profileId publicUrl true true).status ∧
    (deleteProfileDELETE db userId profileId publicUrl true false).counts =
      (deleteProfileDELETE db userId profileId publicUrl true true).counts ∧
    (deleteProfileDELETE db userId profileId publicUrl true false).deletedPhoto =
      (deleteProfileDELETE db userId profileId publicUrl true true).deletedPhoto ∧
    (deleteProfileDELETE db userId profileId publicUrl true false).attemptedKey =
      (deleteProfileDELETE db userId profileId publicUrl true true).attemptedKey := by
  have h2 : (pr.user_id != userId) = false := by
    simp [bne, howner]
  have hres : ∀ r2 : Bool, deleteProfileDELETE db userId profileId publicUrl true r2 =
      ⟨200, (runDeleteTx db profileId).1, some (runDeleteTx db profileId).2,
       some (truthyUrl pr.photo_url),
       (match pr.photo_url with
        | some u => if u != "" then some (r2KeyOf publicUrl u) else none
        | none => none),
       (match pr.photo_url with
        | some u => if u != "" then some (r2KeyOf publicUrl u) else none
        | none => none).isSome && !r2, none⟩ := by
    intro r2
    simp [deleteProfileDELETE, hpr, h2]
  have hfail : ∀ r2 : Bool,
      deleteProfileDELETE db userId profileId publicUrl false r2 =
        ⟨500, db, none, none, none, false, some "Failed to delete profile"⟩ := by
    intro r2
    simp [deleteProfileDELETE, hpr, h2]
  refine ⟨fun r2 => by rw [hfail r2], by rw [hres], by rw [hres], ?_, ?_,
    by rw [hres false, hres true], by rw [hres false, hres true],
    by rw [hres false, hres true], by rw [hres false, hres true],
    by rw [hres false, hres true]⟩
  · rw [hres false]
    show (match pr.photo_url with
        | some u => if u != "" then some (r2KeyOf publicUrl u) else none
        | none => none).isSome = truthyUrl pr.photo_url
    cases hp : pr.photo_url with
    | none => rfl
    | some u =>
      by_cases hu : (u != "") = true
      · simp [hu, truthyUrl]
      · have : (u != "") = false := by simpa using hu
        simp [this, truthyUrl]
  · intro u hu hne
    rw [hres false]
    show (match pr.photo_url with
        | some v => if v != "" then some (r2KeyOf publicUrl v) else none
        | none => none) = some (r2KeyOf publicUrl u)
    rw [hu]
    simp [bne_iff_ne, hne]

/-- Witness for C7: a profile with a photo URL, committed transaction,
failing object-store call. -/
theorem deleteProfile_photo_besteffort_witness :
    (deleteProfileDELETE ⟨[⟨1, 10, some "https://pub/profile/1/a.png"⟩], [], [], [], [], []⟩
        10 1 "https://pub" true false).status = 200 ∧
    (deleteProfileDELETE ⟨[⟨1, 10, some "https://pub/profile/1/a.png"⟩], [], [], [], [], []⟩
        10 1 "https://pub" true false).deletedPhoto =
      some (truthyUrl (some "https://pub/profile/1/a.png")) := by
  have h := deleteProfile_photo_besteffort
    ⟨[⟨1, 10, some "https://pub/profile/1/a.png"⟩], [], [], [], [], []⟩
    10 1 "https://pub" ⟨1, 10, some "https://pub/profile/1/a.png"⟩ (by decide) rfl
  exact ⟨h.2.1, h.2.2.1⟩

/-- C8: adding a story already present in the playlist, and creating a
favorite for a (profile, story) pair that already has one, are each rejected
with 409 and leave the database unchanged — no duplicate row is created. -/
theorem duplicate_conflict_409 (db : DB) (userId pid sid : Int)
    (position : Option Int) (pl : PlaylistRow) (pr : ProfileRow)
    (hpl : findPlaylist db pid = some pl)
    (hpr : findProfile db pl.profile_id = some pr)
    (howner : pr.user_id = userId)
    (hsid : sid ≠ 0)
    (hstory : db.stories.contains sid = true)
    (hdup : db.playlistStories.any (matchesEntry pid sid) = true)
    (db2 : DB) (u2 profileId storyId : Int)
    (hp2 : profileId ≠ 0) (hs2 : storyId ≠ 0)
    (hfav : db2.favorites.any
      (fun f => f.profile_id == profileId && f.story_id == storyId) = true) :
    addStoryPOST db userId pid sid position = ⟨409, db, none⟩ ∧
    favoritesPOST db2 u2 profileId storyId = ⟨409, db2⟩ := by
  constructor
  · have h1 : (sid == 0) = false := beq_eq_false_iff_ne.mpr hsid
    have h2 : (pr.user_id != userId) = false := by
      simp [bne, howner]
    have h3 : (!(db.stories.contains sid)) = false := by
      rw [hstory]
      rfl
    have hstoryMem : sid ∈ db.stories := by
      simpa using hstory
    simp [addStoryPOST, hpl, hpr, h1, h2, h3, hdup, hstoryMem]
  · have hp : (profileId == 0) = false := beq_eq_false_iff_ne.mpr hp2
    have hs : (storyId == 0) = false := beq_eq_false_iff_ne.mpr hs2
    simp [favoritesPOST, hp, hs, hfav]

/-- Witness for C8: story 2 is already in playlist 1, and favorite (1, 5)
already exists. -/
theorem duplicate_conflict_409_witness :
    addStoryPOST ⟨[⟨1, 10, none⟩], [⟨1, 1, "pl"⟩], [1, 2], [⟨1, 2, 0⟩], [], []⟩
        10 1 2 none =
      ⟨409, ⟨[⟨1, 10, none⟩], [⟨1, 1, "pl"⟩], [1, 2], [⟨1, 2, 0⟩], [], []⟩, none⟩ ∧
    favoritesPOST ⟨[⟨1, 10, none⟩], [], [5], [], [⟨1, 5⟩], []⟩ 10 1 5 =
      ⟨409, ⟨[⟨1, 10, none⟩], [], [5], [], [⟨1, 5⟩], []⟩⟩ :=
  duplicate_conflict_409
    ⟨[⟨1, 10, none⟩], [⟨1, 1, "pl"⟩], [1, 2], [⟨1, 2, 0⟩], [], []⟩ 10 1 2 none
    ⟨1, 1, "pl"⟩ ⟨1, 10, none⟩ (by decide) (by decide) rfl (by decide) (by decide)
    (by decide)
    ⟨[⟨1, 10, none⟩], [], [5], [], [⟨1, 5⟩], []⟩ 10 1 5 (by decide) (by decide)
    (by decide)

/-- C9 counterexample: an authenticated caller (user 20) who does not own
profile 1 (owned by user 10) creates a favorite for it; the request is not
rejected with 403 — it succeeds with 201 and a favorite row is written. -/
theorem favorites_no_ownership_check_cex :
    (favoritesPOST ⟨[⟨1, 10, none⟩], [], [5], [], [], []⟩ 20 1 5).status = 201 ∧
    (favoritesPOST ⟨[⟨1, 10, none⟩], [], [5], [], [], []⟩ 20 1 5).status ≠ 403 ∧
    (favoritesPOST ⟨[⟨1, 10, none⟩], [], [5], [], [], []⟩ 20 1 5).db.favorites =
      [⟨1, 5⟩] ∧
    (⟨[⟨1, 10, none⟩], [], [5], [], [], []⟩ : DB).favorites = [] ∧
    findProfile ⟨[⟨1, 10, none⟩], [], [5], [], [], []⟩ 1 = some ⟨1, 10, none⟩ := by
  decide

/-- C9 amended: the handlers that do check ownership — add-story,
remove-story and delete-profile — reject an authenticated non-owner with 403
and perform no mutation; but favorite creation and playlist creation perform
no ownership check at all: their outcome is independent of the caller's
identity, so a non-owner's request is not rejected. -/
theorem ownership_403_amended :
    (∀ (db : DB) (userId pid sid : Int) (position : Option Int)
       (pl : PlaylistRow) (pr : ProfileRow),
      findPlaylist db pid = some pl → findProfile db pl.profile_id = some pr →
      pr.user_id ≠ userId → sid ≠ 0 →
      addStoryPOST db userId pid sid position = ⟨403, db, none⟩) ∧
    (∀ (db : DB) (userId pid sid : Int) (pl : PlaylistRow) (pr : ProfileRow),
      findPlaylist db pid = some pl → findProfile db pl.profile_id = some pr →
      pr.user_id ≠ userId →
      removeStoryDELETE db userId pid sid = ⟨403, db⟩) ∧
    (∀ (db : DB) (userId profileId : Int) (publicUrl : String) (tx r2 : Bool)
       (pr : ProfileRow),
      findProfile db profileId = some pr → pr.user_id ≠ userId →
      deleteProfileDELETE db userId profileId publicUrl tx r2 =
        ⟨403, db, none, none, none, false,
         some "Forbidden - you can only delete your own profiles"⟩) ∧
    (∀ (db : DB) (u1 u2 profileId storyId : Int),
      favoritesPOST db u1 profileId storyId = favoritesPOST db u2 profileId storyId) ∧
    (∀ (db : DB) (u1 u2 profileId : Int) (name : String) (storyIds : List Int)
       (newId : Int),
      playlistsPOST db u1 profileId name storyIds newId =
        playlistsPOST db u2 profileId name storyIds newId) := by
  refine ⟨?_, ?_, ?_, fun db u1 u2 a b => rfl, fun db u1 u2 a nm s i => rfl⟩
  · intro db userId pid sid position pl pr hpl hpr hne hsid
    have h1 : (sid == 0) = false := beq_eq_false_iff_ne.mpr hsid
    have h2 : (pr.user_id != userId) = true := bne_iff_ne.mpr hne
    simp [addStoryPOST, hpl, hpr, h1, h2]
  · intro db userId pid sid pl pr hpl hpr hne
    have h2 : (pr.user_id != userId) = true := bne_iff_ne.mpr hne
    simp [removeStoryDELETE, hpl, hpr, h2]
  · intro db userId profileId publicUrl tx r2 pr hpr hne
    have h2 : (pr.user_id != userId) = true := bne_iff_ne.mpr hne
    simp [deleteProfileDELETE, hpr, h2]

/-- Witness for the amended C9: non-owner caller 20 gets 403 from
remove-story, while the same caller's favorite creation is
caller-independent. -/
theorem ownership_403_amended_witness :
    removeStoryDELETE ⟨[⟨1, 10, none⟩], [⟨1, 1, "pl"⟩], [1], [⟨1, 1, 0⟩], [], []⟩
        20 1 1 =
      ⟨403, ⟨[⟨1, 10, none⟩], [⟨1, 1, "pl"⟩], [1], [⟨1, 1, 0⟩], [], []⟩⟩ :=
  ownership_403_amended.2.1
    ⟨[⟨1, 10, none⟩], [⟨1, 1, "pl"⟩], [1], [⟨1, 1, 0⟩], [], []⟩ 20 1 1
    ⟨1, 1, "pl"⟩ ⟨1, 10, none⟩ (by decide) (by decide) (by decide)

end StoryTeller
